import Mathlib

/-
Verification of the update orchestrator of Redmine-desktop.

The definitions below are a shallow embedding of the updater module
(version comparator, silent background check, background scheduler,
settings store handlers, file downloader, release-source fallback fetch,
IPC handlers).  Each definition is translated from the corresponding
source function; effects (renderer events, timers, the on-disk file,
opened URLs) are made explicit as returned data.
-/

/-- JavaScript String.prototype.split with separator dot, over the
character list of the string: the empty string yields one empty segment,
a separator at either end yields an empty segment there. -/
def splitDots (cs : List Char) : List (List Char) :=
  match cs with
  | [] => [[]]
  | c :: rest =>
    let r := splitDots rest
    if c = '.' then [] :: r
    else
      match r with
      | [] => [[c]]
      | seg :: segs => (c :: seg) :: segs

/-- Decimal value of a digit list. -/
def digitsToNat (cs : List Char) : Nat := cs.foldl (fun acc c => acc * 10 + (c.toNat - 48)) 0

/-- JavaScript Number applied to one dot-segment, combined with the
source's fallback (parts[i] or 0): a nonempty all-digit segment parses to
its value, a missing or empty or non-numeric segment yields 0 (Number of
a non-numeric string is NaN, and NaN-or-0 is 0).  Faithful on the
dotted-numeric version-string domain the spec describes. -/
def parseSeg (cs : List Char) : Nat :=
  if cs ≠ [] ∧ cs.all Char.isDigit then digitsToNat cs else 0

/-- The segment list latest.split(.).map(Number) of isNewerVersion. -/
def segsOf (s : String) : List Nat := (splitDots s.data).map parseSeg

/-- The for-loop of isNewerVersion: current index i, remaining iteration
count fuel (the loop runs max(latestParts.length, currentParts.length)
times); parts[i] or 0 is List.getD i 0. -/
def isNewerFrom (lp cp : List Nat) : Nat → Nat → Bool
  | _, 0 => false
  | i, fuel + 1 =>
    let l := lp.getD i 0
    let c := cp.getD i 0
    if l > c then true
    else if l < c then false
    else isNewerFrom lp cp (i + 1) fuel

/-- isNewerVersion(latest, current) from the source: split both strings
on dots, compare segment-by-segment up to the longer length, first
strictly greater segment of latest decides true, first strictly smaller
decides false, exhaustion decides false. -/
def isNewerVersion (latest current : String) : Bool :=
  let latestParts := segsOf latest
  let currentParts := segsOf current
  isNewerFrom latestParts currentParts 0 (max latestParts.length currentParts.length)

/-- Segment i of version string s, missing segments read as 0. -/
def segAt (s : String) (i : Nat) : Nat := (segsOf s).getD i 0

/-- A dotted-numeric version string: only decimal digits and dots.  This
is the domain on which the embedding of Number-based segment parsing is
exact. -/
def isDottedNumeric (s : String) : Bool := s.data.all (fun ch => ch.isDigit || ch == '.')

theorem isNewerFrom_true_iff (lp cp : List Nat) :
    ∀ fuel i, isNewerFrom lp cp i fuel = true ↔
      ∃ k, k < fuel ∧ cp.getD (i + k) 0 < lp.getD (i + k) 0 ∧
        ∀ j, j < k → lp.getD (i + j) 0 = cp.getD (i + j) 0 := by
  intro fuel
  induction fuel with
  | zero =>
    intro i
    simp [isNewerFrom]
  | succ n ih =>
    intro i
    rw [isNewerFrom]
    by_cases hgt : cp.getD i 0 < lp.getD i 0
    · rw [if_pos hgt]
      constructor
      · intro _
        exact ⟨0, Nat.succ_pos n, by simpa using hgt, fun j hj => absurd hj (Nat.not_lt_zero j)⟩
      · intro _
        rfl
    · rw [if_neg hgt]
      by_cases hlt : lp.getD i 0 < cp.getD i 0
      · rw [if_pos hlt]
        constructor
        · intro hfalse
          exact absurd hfalse (by simp)
        · rintro ⟨k, _, hdiff, hall⟩
          rcases Nat.eq_zero_or_pos k with hk0 | hkpos
          · subst hk0
            simp only [Nat.add_zero] at hdiff
            omega
          · have := hall 0 hkpos
            simp only [Nat.add_zero] at this
            omega
      · rw [if_neg hlt]
        have heq : lp.getD i 0 = cp.getD i 0 := by omega
        rw [ih (i + 1)]
        constructor
        · rintro ⟨k, hk, hdiff, hall⟩
          refine ⟨k + 1, by omega, by simpa [Nat.add_assoc, Nat.add_comm 1 k] using hdiff, ?_⟩
          intro j hj
          rcases Nat.eq_zero_or_pos j with hj0 | hjpos
          · subst hj0
            simpa using heq
          · obtain ⟨j0, rfl⟩ := Nat.exists_eq_add_of_lt hjpos
            have := hall j0 (by omega)
            simpa [Nat.add_assoc, Nat.add_comm 1 j0] using this
        · rintro ⟨k, hk, hdiff, hall⟩
          rcases Nat.eq_zero_or_pos k with hk0 | hkpos
          · subst hk0
            simp only [Nat.add_zero] at hdiff
            omega
          · obtain ⟨k0, rfl⟩ := Nat.exists_eq_add_of_lt hkpos
            refine ⟨k0, by omega, by simpa [Nat.add_assoc, Nat.add_comm 1 k0] using hdiff, ?_⟩
            intro j hj
            have := hall (j + 1) (by omega)
            simpa [Nat.add_assoc, Nat.add_comm 1 j] using this

theorem getD_of_length_le (l : List Nat) (i : Nat) (h : l.length ≤ i) :
    l.getD i 0 = 0 := by
  induction l generalizing i with
  | nil => simp [List.getD]
  | cons x t ih =>
    cases i with
    | zero => simp at h
    | succ j =>
      simp only [List.getD_cons_succ]
      exact ih j (by simpa using h)

/-- The loop over the padded segment lists decides exactly the
first-difference relation on the (zero-extended) segment functions. -/
theorem isNewerVersion_iff_firstDiff (a b : String) :
    isNewerVersion a b = true ↔
      ∃ k, segAt b k < segAt a k ∧ ∀ j, j < k → segAt a j = segAt b j := by
  unfold isNewerVersion segAt
  rw [isNewerFrom_true_iff]
  constructor
  · rintro ⟨k, _, hdiff, hall⟩
    exact ⟨k, by simpa using hdiff, fun j hj => by simpa using hall j hj⟩
  · rintro ⟨k, hdiff, hall⟩
    refine ⟨k, ?_, by simpa using hdiff, fun j hj => by simpa using hall j hj⟩
    by_contra hk
    push_neg at hk
    have ha : (segsOf a).getD k 0 = 0 :=
      getD_of_length_le _ _ (le_trans (le_max_left _ _) hk)
    have hb : (segsOf b).getD k 0 = 0 :=
      getD_of_length_le _ _ (le_trans (le_max_right _ _) hk)
    omega

theorem firstDiff_asymm {f g : Nat → Nat}
    (h1 : ∃ k, g k < f k ∧ ∀ j, j < k → f j = g j)
    (h2 : ∃ k, f k < g k ∧ ∀ j, j < k → g j = f j) : False := by
  obtain ⟨k, hk, hka⟩ := h1
  obtain ⟨m, hm, hma⟩ := h2
  rcases Nat.lt_trichotomy k m with h | h | h
  · have := hma k h
    omega
  · subst h
    omega
  · have := hka m h
    omega

theorem firstDiff_trans {f g h : Nat → Nat}
    (h1 : ∃ k, g k < f k ∧ ∀ j, j < k → f j = g j)
    (h2 : ∃ k, h k < g k ∧ ∀ j, j < k → g j = h j) :
    ∃ k, h k < f k ∧ ∀ j, j < k → f j = h j := by
  obtain ⟨k, hk, hka⟩ := h1
  obtain ⟨m, hm, hma⟩ := h2
  refine ⟨min k m, ?_, ?_⟩
  · rcases Nat.lt_trichotomy k m with hlt | heq | hgt
    · have h1 := hma k hlt
      have h2 : min k m = k := by omega
      rw [h2]
      omega
    · subst heq
      simp only [Nat.min_self]
      omega
    · have h1 := hka m hgt
      have h2 : min k m = m := by omega
      rw [h2]
      omega
  · intro j hj
    have hjk : j < k := by omega
    have hjm : j < m := by omega
    rw [hka j hjk, hma j hjm]

theorem getD_replicate_zero (k i : Nat) : (List.replicate k 0).getD i 0 = 0 := by
  induction k generalizing i with
  | zero => simp [List.getD]
  | succ n ih =>
    cases i with
    | zero => simp [List.replicate_succ]
    | succ j => simp [List.replicate_succ, ih j]

theorem getD_append_replicate_zero (l : List Nat) (k i : Nat) :
    (l ++ List.replicate k 0).getD i 0 = l.getD i 0 := by
  induction l generalizing i with
  | nil => simp [getD_replicate_zero k i]
  | cons x t ih =>
    cases i with
    | zero => simp
    | succ j => simpa using ih j

/-- Claim C3: for dotted version strings, isNewerVersion splits both on
dots, parses each segment as a non-negative integer with missing
segments treated as 0, compares segment-by-segment left to right, and
returns true exactly when there is a first position at which the
candidate segment strictly exceeds the current one with all earlier
segments equal; in particular the three quoted evaluations hold. -/
theorem c3_isNewerVersion_segmentwise :
    (∀ a b : String, isDottedNumeric a = true → isDottedNumeric b = true →
      (isNewerVersion a b = true ↔
        ∃ k, segAt b k < segAt a k ∧ ∀ j, j < k → segAt a j = segAt b j)) ∧
    isNewerVersion "1.2.0" "1.2" = false ∧
    isNewerVersion "1.3" "1.2.9" = true ∧
    isNewerVersion "2.0" "2.0" = false :=
  ⟨fun a b _ _ => isNewerVersion_iff_firstDiff a b, by decide, by decide, by decide⟩

theorem c3_isNewerVersion_segmentwise_witness :
    isNewerVersion "1.3" "1.2.9" = true :=
  (c3_isNewerVersion_segmentwise.1 "1.3" "1.2.9" (by decide) (by decide)).mpr
    ⟨1, by decide, fun j hj => by
      have hj0 : j = 0 := by omega
      subst hj0
      decide⟩

/-- Claim C8: on dotted-numeric version strings isNewerVersion is a
strict weak ordering that ignores trailing zero segments: it is
irreflexive, asymmetric and transitive, and two versions whose segment
lists differ only by trailing zero segments are mutually not newer. -/
theorem c8_isNewerVersion_strict_weak_order :
    (∀ v : String, isDottedNumeric v = true → isNewerVersion v v = false) ∧
    (∀ a b : String, isDottedNumeric a = true → isDottedNumeric b = true →
      ¬(isNewerVersion a b = true ∧ isNewerVersion b a = true)) ∧
    (∀ a b c : String, isDottedNumeric a = true → isDottedNumeric b = true →
      isDottedNumeric c = true → isNewerVersion a b = true → isNewerVersion b c = true →
      isNewerVersion a c = true) ∧
    (∀ a b : String, ∀ k : Nat, isDottedNumeric a = true → isDottedNumeric b = true →
      segsOf b = segsOf a ++ List.replicate k 0 →
      isNewerVersion a b = false ∧ isNewerVersion b a = false) := by
  refine ⟨?_, ?_, ?_, ?_⟩
  · intro v _
    cases h : isNewerVersion v v with
    | false => rfl
    | true =>
      obtain ⟨k, hk, _⟩ := (isNewerVersion_iff_firstDiff v v).mp h
      omega
  · rintro a b _ _ ⟨h1, h2⟩
    exact firstDiff_asymm ((isNewerVersion_iff_firstDiff a b).mp h1)
      ((isNewerVersion_iff_firstDiff b a).mp h2)
  · intro a b c _ _ _ h1 h2
    exact (isNewerVersion_iff_firstDiff a c).mpr
      (firstDiff_trans ((isNewerVersion_iff_firstDiff a b).mp h1)
        ((isNewerVersion_iff_firstDiff b c).mp h2))
  · intro a b k _ _ hseg
    have hpt : ∀ i, segAt b i = segAt a i := by
      intro i
      unfold segAt
      rw [hseg]
      exact getD_append_replicate_zero _ _ _
    constructor
    · cases h : isNewerVersion a b with
      | false => rfl
      | true =>
        obtain ⟨m, hm, _⟩ := (isNewerVersion_iff_firstDiff a b).mp h
        rw [hpt m] at hm
        omega
    · cases h : isNewerVersion b a with
      | false => rfl
      | true =>
        obtain ⟨m, hm, _⟩ := (isNewerVersion_iff_firstDiff b a).mp h
        rw [hpt m] at hm
        omega

theorem c8_isNewerVersion_strict_weak_order_witness :
    isNewerVersion "2.0" "2.0" = false ∧
    isNewerVersion "1.2.0" "1.2" = false ∧
    isNewerVersion "2.0" "1.0" = true :=
  ⟨c8_isNewerVersion_strict_weak_order.1 "2.0" (by decide),
   (c8_isNewerVersion_strict_weak_order.2.2.2 "1.2" "1.2.0" 1 (by decide) (by decide)
     (by decide)).2,
   c8_isNewerVersion_strict_weak_order.2.2.1 "2.0" "1.5" "1.0" (by decide) (by decide)
     (by decide) (by decide) (by decide)⟩

/-- Release metadata carried by autoUpdater update-info objects. -/
structure UpdateInfo where
  version : String
  releaseDate : String
  releaseNotes : String
  releaseName : String
  deriving DecidableEq, Repr

/-- Payloads sent toward the renderer through sendToRenderer, one
constructor per channel the updater uses.  The download-progress payload
also carries float-valued percent and bytesPerSecond fields derived from
transferred, total and wall-clock time; being floating point they are
not modelled. -/
inductive RendererEvent
  | checkingForUpdate
  | updateAvailableSilent (version releaseDate : String)
  | updateNotAvailable (version : String) (devMode : Bool)
  | updateAvailable (version releaseDate releaseNotes releaseName : String)
  | updateError (message : String)
  | downloadProgress (transferred total : Nat)
  | updateDownloaded (version : String) (dmgPath : Option String)
  deriving DecidableEq, Repr

/-- Outcome of the awaited autoUpdater.checkForUpdates() call: a
resolved promise whose result and updateInfo fields are collapsed into
one Option (the source guards on both), or a rejected promise carrying
an error message. -/
inductive CheckOutcome
  | success (info : Option UpdateInfo)
  | failure (message : String)
  deriving DecidableEq, Repr

/-- silentCheckForUpdates from the source, as the list of renderer
events it emits: nothing in dev mode; on success with update info whose
version differs (string inequality, the source compares with strict
string disequality) from the current app version, exactly one
update-available-silent event; otherwise nothing; a rejected check is
caught, logged, and emits nothing. -/
def silentCheckForUpdates (isDev : Bool) (currentVersion : String)
    (outcome : CheckOutcome) : List RendererEvent :=
  if isDev then []
  else
    match outcome with
    | .success (some info) =>
      if info.version ≠ currentVersion then
        [.updateAvailableSilent info.version info.releaseDate]
      else []
    | .success none => []
    | .failure _ => []

/-- Claim C1 fails as stated: a successful silent check whose fetched
release is strictly older than the current version still emits the
update-available-silent notification, because the source compares the
versions with string inequality instead of a newer-than test. -/
theorem c1_counterexample :
    silentCheckForUpdates false "1.0.0"
        (.success (some ⟨"0.9.0", "2024-01-01", "", ""⟩)) =
      [.updateAvailableSilent "0.9.0" "2024-01-01"] ∧
    isNewerVersion "0.9.0" "1.0.0" = false := by
  decide

/-- Claim C1 amended: for every release fetched by a successful silent
background check, the notification is emitted exactly when the fetched
version differs, as a string, from the current application version
(which includes older versions); when the versions coincide or no
update info is returned nothing is emitted, and a failed check emits no
event toward the UI (the error is only logged). -/
theorem c1_silent_check_emission (cur : String) (outcome : CheckOutcome) :
    (∀ info : UpdateInfo, outcome = .success (some info) →
      silentCheckForUpdates false cur outcome =
        (if info.version ≠ cur then
          [RendererEvent.updateAvailableSilent info.version info.releaseDate]
         else [])) ∧
    (∀ m, outcome = .failure m → silentCheckForUpdates false cur outcome = []) ∧
    (outcome = .success none → silentCheckForUpdates false cur outcome = []) := by
  refine ⟨?_, ?_, ?_⟩
  · rintro info rfl
    rfl
  · rintro m rfl
    rfl
  · rintro rfl
    rfl

theorem c1_silent_check_emission_witness :
    silentCheckForUpdates false "1.0.0" (.success (some ⟨"1.1.0", "2024-02-02", "", ""⟩)) =
      (if ("1.1.0" : String) ≠ "1.0.0" then
        [RendererEvent.updateAvailableSilent "1.1.0" "2024-02-02"]
       else []) ∧
    silentCheckForUpdates false "1.0.0" (.failure "network down") = [] :=
  ⟨(c1_silent_check_emission "1.0.0" (.success (some ⟨"1.1.0", "2024-02-02", "", ""⟩))).1
      ⟨"1.1.0", "2024-02-02", "", ""⟩ rfl,
   (c1_silent_check_emission "1.0.0" (.failure "network down")).2.1 "network down" rfl⟩

/-- The electron-store key-value store restricted to the two keys the
updater uses; a missing key reads as the documented default.  Interval
values come from the renderer as arbitrary JS numbers and are modelled
as integers, since the source never validates them. -/
structure Store where
  autoCheckUpdate : Option Bool
  autoCheckInterval : Option Int
  deriving DecidableEq, Repr

/-- The record returned by getAutoCheckSettings. -/
structure AutoCheckSettings where
  enabled : Bool
  interval : Int
  deriving DecidableEq, Repr

/-- getAutoCheckSettings from the source: read both keys with defaults
enabled = true and interval = 24 hours. -/
def getAutoCheckSettings (st : Store) : AutoCheckSettings :=
  ⟨st.autoCheckUpdate.getD true, st.autoCheckInterval.getD 24⟩

/-- Scheduler timer state: the module variables autoCheckTimer,
initialCheckTimeout and isFirstStart.  An armed timer carries a fresh
numeric identity (so cancellation of earlier timers is observable) and
its period or delay in milliseconds. -/
structure SchedState where
  autoCheckTimer : Option (Nat × Int)
  initialCheckTimeout : Option (Nat × Nat)
  isFirstStart : Bool
  nextId : Nat
  deriving DecidableEq, Repr

/-- Module state at process start. -/
def initialSchedState : SchedState := ⟨none, none, true, 0⟩

/-- startAutoCheck from the source: clear both timers, return if
auto-check is disabled or the app is unpackaged, otherwise arm the
recurring timer with period interval*60*60*1000 ms and, only while
isFirstStart is still set, clear that flag and arm the 10000 ms one-shot
initial check. -/
def startAutoCheck (isDev : Bool) (st : Store) (s : SchedState) : SchedState :=
  let cleared : SchedState := { s with autoCheckTimer := none, initialCheckTimeout := none }
  let settings := getAutoCheckSettings st
  if !settings.enabled || isDev then cleared
  else
    let armed : SchedState :=
      { cleared with
        autoCheckTimer := some (cleared.nextId, settings.interval * 60 * 60 * 1000),
        nextId := cleared.nextId + 1 }
    if armed.isFirstStart then
      { armed with
        isFirstStart := false,
        initialCheckTimeout := some (armed.nextId, 10000),
        nextId := armed.nextId + 1 }
    else armed

/-- The partial settings object received by set-auto-update-settings;
an absent field is undefined in the source. -/
structure PartialSettings where
  enabled : Option Bool
  interval : Option Int
  deriving DecidableEq, Repr

/-- The set-auto-update-settings IPC handler: write exactly the provided
fields to the store, restart the scheduler, and return the settings
re-read from the store. -/
def setAutoUpdateSettings (isDev : Bool) (p : PartialSettings) (st : Store) (s : SchedState) :
    Store × SchedState × AutoCheckSettings :=
  let st1 := match p.enabled with
    | some b => { st with autoCheckUpdate := some b }
    | none => st
  let st2 := match p.interval with
    | some i => { st1 with autoCheckInterval := some i }
    | none => st1
  let s2 := startAutoCheck isDev st2 s
  (st2, s2, getAutoCheckSettings st2)

theorem startAutoCheck_recurring (isDev : Bool) (st : Store) (s : SchedState) :
    (startAutoCheck isDev st s).autoCheckTimer =
      (if (getAutoCheckSettings st).enabled && !isDev then
        some (s.nextId, (getAutoCheckSettings st).interval * 60 * 60 * 1000)
       else none) := by
  cases hE : (getAutoCheckSettings st).enabled <;> cases hD : isDev <;>
    cases hF : s.isFirstStart <;> simp [startAutoCheck, hE, hD, hF]

theorem startAutoCheck_oneShot (isDev : Bool) (st : Store) (s : SchedState) :
    (startAutoCheck isDev st s).initialCheckTimeout =
      (if s.isFirstStart && ((getAutoCheckSettings st).enabled && !isDev) then
        some (s.nextId + 1, 10000)
       else none) := by
  cases hE : (getAutoCheckSettings st).enabled <;> cases hD : isDev <;>
    cases hF : s.isFirstStart <;> simp [startAutoCheck, hE, hD, hF]

theorem startAutoCheck_firstStart (isDev : Bool) (st : Store) (s : SchedState) :
    (startAutoCheck isDev st s).isFirstStart =
      (s.isFirstStart && !((getAutoCheckSettings st).enabled && !isDev)) := by
  cases hE : (getAutoCheckSettings st).enabled <;> cases hD : isDev <;>
    cases hF : s.isFirstStart <;> simp [startAutoCheck, hE, hD, hF]

/-- Number of runs in a sequence of startAutoCheck calls that leave the
one-shot armed; each run clears it first, so a one-shot present after a
run was armed by that run. -/
def armCount (isDev : Bool) : List Store → SchedState → Nat
  | [], _ => 0
  | st :: rest, s =>
    (if (startAutoCheck isDev st s).initialCheckTimeout.isSome then 1 else 0) +
      armCount isDev rest (startAutoCheck isDev st s)

theorem armCount_zero_of_not_first (isDev : Bool) :
    ∀ (l : List Store) (s : SchedState), s.isFirstStart = false → armCount isDev l s = 0 := by
  intro l
  induction l with
  | nil =>
    intro s _
    rfl
  | cons st rest ih =>
    intro s hs
    have h1 : (startAutoCheck isDev st s).isFirstStart = false := by
      rw [startAutoCheck_firstStart, hs]
      rfl
    have h2 : (startAutoCheck isDev st s).initialCheckTimeout = none := by
      rw [startAutoCheck_oneShot, hs]
      rfl
    rw [armCount, h2, ih _ h1]
    rfl

theorem armCount_le_one (isDev : Bool) :
    ∀ (l : List Store) (s : SchedState), armCount isDev l s ≤ 1 := by
  intro l
  induction l with
  | nil =>
    intro s
    exact Nat.zero_le 1
  | cons st rest ih =>
    intro s
    rw [armCount]
    cases h : (startAutoCheck isDev st s).initialCheckTimeout with
    | none =>
      simpa [h] using ih (startAutoCheck isDev st s)
    | some p =>
      have hf : (startAutoCheck isDev st s).isFirstStart = false := by
        rw [startAutoCheck_firstStart]
        rw [startAutoCheck_oneShot] at h
        cases hF : s.isFirstStart with
        | false =>
          rw [hF] at h
          simp at h
        | true =>
          cases hg : ((getAutoCheckSettings st).enabled && !isDev) with
          | false =>
            rw [hF, hg] at h
            simp at h
          | true =>
            rfl
      rw [armCount_zero_of_not_first isDev rest _ hf]
      simp

/-- Claim C6 fails as stated: a first scheduler start with auto-check
disabled leaves the first-start flag set (and arms no one-shot), so a
subsequent startAutoCheck run triggered by a settings change that
enables auto-check arms the 10-second one-shot, although it is not the
first scheduler start of the process lifetime. -/
theorem c6_counterexample :
    (startAutoCheck false ⟨some false, none⟩ initialSchedState).initialCheckTimeout = none ∧
    (setAutoUpdateSettings false ⟨some true, none⟩ ⟨some false, none⟩
        (startAutoCheck false ⟨some false, none⟩ initialSchedState)).2.1.initialCheckTimeout =
      some (1, 10000) := by
  decide

/-- Claim C6 amended: every startAutoCheck run first cancels any
existing recurring and pending one-shot timers (every timer present
after a run was freshly armed by that run), re-arms the recurring timer
exactly when auto-check is enabled and the app is packaged, and arms the
10-second one-shot exactly on a run that still finds the first-start
flag set while enabled and packaged — hence at most once per process
lifetime, though not necessarily on the first run, since a run that does
not pass the enabled-and-packaged gate leaves the flag set. -/
theorem c6_scheduler_timer_discipline (isDev : Bool) (st : Store) (s : SchedState) :
    (∀ id p, (startAutoCheck isDev st s).autoCheckTimer = some (id, p) → s.nextId ≤ id) ∧
    (∀ id d, (startAutoCheck isDev st s).initialCheckTimeout = some (id, d) →
      s.nextId ≤ id ∧ d = 10000) ∧
    (startAutoCheck isDev st s).autoCheckTimer.isSome =
      ((getAutoCheckSettings st).enabled && !isDev) ∧
    (startAutoCheck isDev st s).initialCheckTimeout.isSome =
      (s.isFirstStart && ((getAutoCheckSettings st).enabled && !isDev)) ∧
    (∀ l : List Store, ∀ s0 : SchedState, armCount isDev l s0 ≤ 1) := by
  refine ⟨?_, ?_, ?_, ?_, fun l s0 => armCount_le_one isDev l s0⟩
  · intro id p h
    rw [startAutoCheck_recurring] at h
    cases hg : ((getAutoCheckSettings st).enabled && !isDev) with
    | false =>
      rw [hg] at h
      simp at h
    | true =>
      rw [hg] at h
      simp only [if_true, reduceIte, Option.some.injEq, Prod.mk.injEq] at h
      omega
  · intro id d h
    rw [startAutoCheck_oneShot] at h
    cases hg : (s.isFirstStart && ((getAutoCheckSettings st).enabled && !isDev)) with
    | false =>
      rw [hg] at h
      simp at h
    | true =>
      rw [hg] at h
      simp only [if_true, reduceIte, Option.some.injEq, Prod.mk.injEq] at h
      omega
  · rw [startAutoCheck_recurring]
    cases hg : ((getAutoCheckSettings st).enabled && !isDev) <;> rfl
  · rw [startAutoCheck_oneShot]
    cases hg : (s.isFirstStart && ((getAutoCheckSettings st).enabled && !isDev)) <;> rfl

theorem c6_scheduler_timer_discipline_witness :
    initialSchedState.nextId ≤ 1 ∧ (10000 : Nat) = 10000 :=
  (c6_scheduler_timer_discipline false ⟨some true, some 2⟩ initialSchedState).2.1 1 10000
    (by decide)

/-- Claim C9 fails: set-auto-update-settings stores a provided interval
without any validation, so an interval of 0 hours is written to the
store, read back as 0 (below the data-model bound of 1), and the
scheduler arms its recurring timer with a 0 ms period. -/
theorem c9_counterexample :
    (setAutoUpdateSettings false ⟨none, some 0⟩ ⟨none, none⟩ initialSchedState).1.autoCheckInterval =
      some 0 ∧
    (setAutoUpdateSettings false ⟨none, some 0⟩ ⟨none, none⟩ initialSchedState).2.2.interval = 0 ∧
    (setAutoUpdateSettings false ⟨none, some 0⟩ ⟨none, none⟩ initialSchedState).2.1.autoCheckTimer =
      some (0, 0) := by
  decide

theorem startAutoCheck_period_ge (isDev : Bool) (st : Store) (s : SchedState)
    (h1 : 1 ≤ (getAutoCheckSettings st).interval) :
    ∀ id q, (startAutoCheck isDev st s).autoCheckTimer = some (id, q) → 3600000 ≤ q := by
  intro id q h
  rw [startAutoCheck_recurring] at h
  cases hg : ((getAutoCheckSettings st).enabled && !isDev) with
  | false =>
    rw [hg] at h
    simp at h
  | true =>
    rw [hg] at h
    simp only [if_true, reduceIte, Option.some.injEq, Prod.mk.injEq] at h
    have hq := h.2
    omega

/-- Claim C9 amended: the handler applies no lower bound itself; the
data-model constraint holds only on the guarded domain: whenever every
interval already in the store and every interval provided by the caller
is at least 1, the stored key, the settings read back, and the armed
recurring-timer period stay at least one hour (with the default 24 used
for an absent key). -/
theorem c9_interval_validation_gap (isDev : Bool) (p : PartialSettings) (st : Store)
    (s : SchedState)
    (hst : ∀ i, st.autoCheckInterval = some i → 1 ≤ i)
    (hp : ∀ i, p.interval = some i → 1 ≤ i) :
    (∀ i, (setAutoUpdateSettings isDev p st s).1.autoCheckInterval = some i → 1 ≤ i) ∧
    1 ≤ (setAutoUpdateSettings isDev p st s).2.2.interval ∧
    (∀ id q, (setAutoUpdateSettings isDev p st s).2.1.autoCheckTimer = some (id, q) →
      3600000 ≤ q) := by
  rcases p with ⟨pe, pi⟩
  have hint : ∀ i, (setAutoUpdateSettings isDev ⟨pe, pi⟩ st s).1.autoCheckInterval = some i →
      1 ≤ i := by
    intro i hi
    cases hpi : pi with
    | none =>
      refine hst i ?_
      cases pe <;> simp [setAutoUpdateSettings, hpi] at hi <;> exact hi
    | some i0 =>
      have hii : i = i0 := by
        cases pe <;> simp [setAutoUpdateSettings, hpi] at hi <;> omega
      subst hii
      exact hp i (by rw [hpi])
  have hget : 1 ≤ (setAutoUpdateSettings isDev ⟨pe, pi⟩ st s).2.2.interval := by
    show 1 ≤ ((setAutoUpdateSettings isDev ⟨pe, pi⟩ st s).1.autoCheckInterval).getD 24
    cases hiv : (setAutoUpdateSettings isDev ⟨pe, pi⟩ st s).1.autoCheckInterval with
    | none => simp
    | some j => simpa using hint j hiv
  refine ⟨hint, hget, ?_⟩
  exact startAutoCheck_period_ge isDev _ s hget

theorem c9_interval_validation_gap_witness :
    (∀ i, (setAutoUpdateSettings false ⟨none, some 2⟩ ⟨none, none⟩
        initialSchedState).1.autoCheckInterval = some i → 1 ≤ i) ∧
    1 ≤ (setAutoUpdateSettings false ⟨none, some 2⟩ ⟨none, none⟩
        initialSchedState).2.2.interval ∧
    (∀ id q, (setAutoUpdateSettings false ⟨none, some 2⟩ ⟨none, none⟩
        initialSchedState).2.1.autoCheckTimer = some (id, q) → 3600000 ≤ q) :=
  c9_interval_validation_gap false ⟨none, some 2⟩ ⟨none, none⟩ initialSchedState
    (fun i hi => by simp at hi) (fun i hi => by simp at hi; omega)

/-- Claim C10: set-auto-update-settings writes exactly the provided
fields — an omitted field leaves its store key untouched, a provided one
overwrites it — and returns the full settings re-read from the
post-update store, missing keys reading as the defaults enabled = true
and interval = 24. -/
theorem c10_set_settings_frame (isDev : Bool) (p : PartialSettings) (st : Store)
    (s : SchedState) :
    (p.enabled = none → (setAutoUpdateSettings isDev p st s).1.autoCheckUpdate =
      st.autoCheckUpdate) ∧
    (p.interval = none → (setAutoUpdateSettings isDev p st s).1.autoCheckInterval =
      st.autoCheckInterval) ∧
    (∀ b, p.enabled = some b → (setAutoUpdateSettings isDev p st s).1.autoCheckUpdate =
      some b) ∧
    (∀ i, p.interval = some i → (setAutoUpdateSettings isDev p st s).1.autoCheckInterval =
      some i) ∧
    (setAutoUpdateSettings isDev p st s).2.2 =
      getAutoCheckSettings (setAutoUpdateSettings isDev p st s).1 ∧
    (setAutoUpdateSettings isDev p st s).2.2.enabled =
      ((setAutoUpdateSettings isDev p st s).1.autoCheckUpdate).getD true ∧
    (setAutoUpdateSettings isDev p st s).2.2.interval =
      ((setAutoUpdateSettings isDev p st s).1.autoCheckInterval).getD 24 := by
  refine ⟨?_, ?_, ?_, ?_, rfl, rfl, rfl⟩
  · intro h
    cases hpi : p.interval with
    | none => simp [setAutoUpdateSettings, h, hpi]
    | some i => simp [setAutoUpdateSettings, h, hpi]
  · intro h
    cases hpe : p.enabled with
    | none => simp [setAutoUpdateSettings, h, hpe]
    | some b => simp [setAutoUpdateSettings, h, hpe]
  · intro b hb
    cases hpi : p.interval with
    | none => simp [setAutoUpdateSettings, hb, hpi]
    | some i => simp [setAutoUpdateSettings, hb, hpi]
  · intro i hi
    cases hpe : p.enabled with
    | none => simp [setAutoUpdateSettings, hi, hpe]
    | some b => simp [setAutoUpdateSettings, hi, hpe]

theorem c10_set_settings_frame_witness :
    (setAutoUpdateSettings false ⟨some false, none⟩ ⟨none, some 5⟩
        initialSchedState).1.autoCheckInterval = ((⟨none, some 5⟩ : Store).autoCheckInterval) ∧
    (setAutoUpdateSettings false ⟨some false, none⟩ ⟨none, some 5⟩
        initialSchedState).1.autoCheckUpdate = some false :=
  ⟨(c10_set_settings_frame false ⟨some false, none⟩ ⟨none, some 5⟩ initialSchedState).2.1 rfl,
   (c10_set_settings_frame false ⟨some false, none⟩ ⟨none, some 5⟩
      initialSchedState).2.2.1 false rfl⟩

/-- How the body stream of a 200 response ends after its chunks have
been delivered: normal completion (the pipe ends the write stream, whose
finish handler closes it and resolves), an error event on the write
stream (whose error handler closes, unlinks and rejects), or an error
event on the response stream itself — for which the source registers no
handler, so no cleanup and no settlement happen (an unhandled stream
error raises an uncaught exception, and the partial file stays at
destPath either way). -/
inductive BodyEnd
  | complete
  | fileError (message : String)
  | responseError (message : String)
  deriving DecidableEq, Repr

/-- One HTTP response: status code, Location header, Content-Length
header, the delivered body chunks (byte lists), and how the body stream
ends. -/
structure HttpResp where
  statusCode : Nat
  location : Option String
  contentLength : Option Nat
  chunks : List (List Nat)
  bodyEnd : BodyEnd
  deriving DecidableEq, Repr

/-- What https.get yields for a URL: a response, or an error event on
the request object. -/
inductive NetResp
  | response (r : HttpResp)
  | requestError (message : String)
  deriving DecidableEq, Repr

/-- Settlement state of the downloadFile promise. -/
inductive Settled
  | pending
  | resolved
  | rejected (message : String)
  deriving DecidableEq, Repr

/-- Observable outcome of one downloadFile call: how the promise
settled, the file at destPath afterwards (none means deleted), the
(transferred, total) progress snapshots handed to onProgress in order,
and whether the write-stream handle was closed.  Percent and
bytesPerSecond of the progress payload are float-valued fields derived
from transferred, total and wall-clock time and are not modelled. -/
structure DownloadRun where
  settled : Settled
  fileAfter : Option (List Nat)
  progress : List (Nat × Nat)
  handleClosed : Bool
  deriving DecidableEq, Repr

/-- Progress snapshots of the data handler: downloadedBytes accumulates
the chunk lengths starting from acc, total stays fixed. -/
def progressSnapshots (acc total : Nat) : List (List Nat) → List (Nat × Nat)
  | [] => []
  | ch :: rest => (acc + ch.length, total) :: progressSnapshots (acc + ch.length) total rest

/-- The recursive makeRequest of downloadFile.  acc is the enclosing
downloadedBytes counter and written the bytes already in the write
stream; both stay 0 resp. empty across redirect hops because only a 200
response attaches a data handler and pipes into the file.  A 301 or 302
with a truthy Location header re-issues the request there; a 301 or 302
without one falls through to the non-200 branch, like any other non-200
status: close, unlink, reject.  fuel bounds the redirect recursion,
which the source leaves unbounded; exhausted fuel models a still-running
chain (promise pending, the file created at start still present). -/
def makeRequest (server : String → NetResp) (acc : Nat) (written : List Nat) :
    String → Nat → DownloadRun
  | _, 0 => ⟨.pending, some written, [], false⟩
  | url, fuel + 1 =>
    match server url with
    | .requestError m => ⟨.rejected m, none, [], true⟩
    | .response r =>
      if (r.statusCode = 301 ∨ r.statusCode = 302) ∧ r.location.getD "" ≠ "" then
        makeRequest server acc written (r.location.getD "") fuel
      else if r.statusCode ≠ 200 then
        ⟨.rejected ("Download failed: HTTP " ++ toString r.statusCode), none, [], true⟩
      else
        match r.bodyEnd with
        | .complete =>
          ⟨.resolved, some (written ++ r.chunks.flatten),
            progressSnapshots acc (r.contentLength.getD 0) r.chunks, true⟩
        | .fileError m =>
          ⟨.rejected m, none,
            progressSnapshots acc (r.contentLength.getD 0) r.chunks, true⟩
        | .responseError _ =>
          ⟨.pending, some (written ++ r.chunks.flatten),
            progressSnapshots acc (r.contentLength.getD 0) r.chunks, false⟩

/-- downloadFile(url, destPath, onProgress) under a given server and a
redirect-hop bound: the write stream starts empty, downloadedBytes at 0. -/
def downloadFile (server : String → NetResp) (url : String) (fuel : Nat) : DownloadRun :=
  makeRequest server 0 [] url fuel

/-- url reaches w after exactly n redirect hops, each hop a 301 or 302
response with a truthy Location header. -/
inductive RedirectsTo (server : String → NetResp) : String → String → Nat → Prop
  | refl (u : String) : RedirectsTo server u u 0
  | step {u v w : String} {n : Nat} {r : HttpResp} :
      server u = .response r →
      (r.statusCode = 301 ∨ r.statusCode = 302) →
      r.location.getD "" = v → v ≠ "" →
      RedirectsTo server v w n →
      RedirectsTo server u w (n + 1)

/-- Running totals of a list of sizes, starting from acc. -/
def prefixTotals (acc : Nat) : List Nat → List Nat
  | [] => []
  | n :: rest => (acc + n) :: prefixTotals (acc + n) rest

theorem makeRequest_redirect (server : String → NetResp) (u : String) (r : HttpResp)
    (acc : Nat) (written : List Nat) (fuel : Nat)
    (hs : server u = .response r) (hcode : r.statusCode = 301 ∨ r.statusCode = 302)
    (hloc : r.location.getD "" ≠ "") :
    makeRequest server acc written u (fuel + 1) =
      makeRequest server acc written (r.location.getD "") fuel := by
  simp only [makeRequest, hs]
  rw [if_pos ⟨hcode, hloc⟩]

theorem makeRequest_chain_ok (server : String → NetResp) (u w : String) (n : Nat)
    (r : HttpResp) (fuel : Nat)
    (hchain : RedirectsTo server u w n) (hs : server w = .response r)
    (h200 : r.statusCode = 200) (hend : r.bodyEnd = .complete) :
    downloadFile server u (n + fuel + 1) =
      ⟨.resolved, some r.chunks.flatten,
        progressSnapshots 0 (r.contentLength.getD 0) r.chunks, true⟩ := by
  unfold downloadFile
  induction n generalizing u with
  | zero =>
    cases hchain with
    | refl =>
      simp only [Nat.zero_add, makeRequest, hs]
      have hc1 : ¬((r.statusCode = 301 ∨ r.statusCode = 302) ∧ r.location.getD "" ≠ "") := by
        rintro ⟨hc, -⟩
        rw [h200] at hc
        rcases hc with hc | hc <;> exact absurd hc (by decide)
      have hc2 : ¬(r.statusCode ≠ 200) := by simp [h200]
      rw [if_neg hc1, if_neg hc2, hend]
      simp
  | succ m ih =>
    cases hchain with
    | step hs1 hcode1 hloc1 hne1 hrest =>
      have harith : m + 1 + fuel + 1 = (m + fuel + 1) + 1 := by omega
      rw [harith, makeRequest_redirect server u _ 0 [] (m + fuel + 1) hs1 hcode1
        (by rw [hloc1]; exact hne1), hloc1]
      exact ih _ hrest

theorem progressSnapshots_spec :
    ∀ (total : Nat) (chunks : List (List Nat)) (acc : Nat),
      (progressSnapshots acc total chunks).map Prod.fst =
        prefixTotals acc (chunks.map List.length) ∧
      ∀ pr ∈ progressSnapshots acc total chunks, pr.2 = total := by
  intro total chunks
  induction chunks with
  | nil =>
    intro acc
    exact ⟨rfl, by intro pr hpr; simp [progressSnapshots] at hpr⟩
  | cons ch rest ih =>
    intro acc
    constructor
    · simp [progressSnapshots, prefixTotals, (ih (acc + ch.length)).1]
    · intro pr hpr
      simp only [progressSnapshots, List.mem_cons] at hpr
      rcases hpr with rfl | hpr
      · rfl
      · exact (ih (acc + ch.length)).2 pr hpr

theorem makeRequest_rejected_cleanup (server : String → NetResp) (acc : Nat)
    (written : List Nat) :
    ∀ (fuel : Nat) (url m : String),
      (makeRequest server acc written url fuel).settled = .rejected m →
      (makeRequest server acc written url fuel).fileAfter = none ∧
      (makeRequest server acc written url fuel).handleClosed = true := by
  intro fuel
  induction fuel with
  | zero =>
    intro url m h
    simp [makeRequest] at h
  | succ f ih =>
    intro url m h
    cases hsrv : server url with
    | requestError m0 =>
      simp only [makeRequest, hsrv] at h ⊢
      exact ⟨trivial, trivial⟩
    | response r =>
      by_cases hc1 : (r.statusCode = 301 ∨ r.statusCode = 302) ∧ r.location.getD "" ≠ ""
      · simp only [makeRequest, hsrv, if_pos hc1] at h ⊢
        exact ih _ m h
      · by_cases hc2 : r.statusCode ≠ 200
        · simp only [makeRequest, hsrv, if_neg hc1, if_pos hc2] at h ⊢
          exact ⟨trivial, trivial⟩
        · cases hend : r.bodyEnd with
          | complete =>
            simp only [makeRequest, hsrv, if_neg hc1, if_neg hc2, hend] at h
            exact Settled.noConfusion h
          | fileError m0 =>
            simp only [makeRequest, hsrv, if_neg hc1, if_neg hc2, hend] at h ⊢
            exact ⟨trivial, trivial⟩
          | responseError m0 =>
            simp only [makeRequest, hsrv, if_neg hc1, if_neg hc2, hend] at h
            exact Settled.noConfusion h

/-- Claim C2 fails as stated: an error on the response stream during
transfer is a stream error after which the partial file still exists at
destPath, the handle stays open, and the promise never rejects — the
source installs an error handler on the write stream and on the request,
but none on the response stream. -/
theorem c2_counterexample :
    downloadFile (fun _ => .response ⟨200, none, some 4, [[1, 2]], .responseError "reset"⟩)
        "https://host/file" 1 =
      ⟨.pending, some [1, 2], [(2, 4)], false⟩ := by
  decide

/-- Claim C2 amended: every failure the source observes — a non-200
terminal status (including a redirect status without a usable Location),
an error on the request object, or a write-stream error during transfer
— closes the file handle, deletes the partial file at destPath and
rejects the promise; and conversely, whenever the promise rejects, the
file is gone and the handle closed.  The cleanup does not extend to an
error on the response stream itself, which the source leaves unhandled:
there the promise never settles and the partial file remains. -/
theorem c2_download_failure_cleanup (server : String → NetResp) (url : String)
    (fuel : Nat) :
    (∀ m, (downloadFile server url fuel).settled = .rejected m →
      (downloadFile server url fuel).fileAfter = none ∧
      (downloadFile server url fuel).handleClosed = true) ∧
    (∀ m, server url = .requestError m →
      downloadFile server url (fuel + 1) = ⟨.rejected m, none, [], true⟩) ∧
    (∀ r, server url = .response r →
      ¬((r.statusCode = 301 ∨ r.statusCode = 302) ∧ r.location.getD "" ≠ "") →
      r.statusCode ≠ 200 →
      downloadFile server url (fuel + 1) =
        ⟨.rejected ("Download failed: HTTP " ++ toString r.statusCode), none, [], true⟩) ∧
    (∀ r m, server url = .response r → r.statusCode = 200 → r.bodyEnd = .fileError m →
      downloadFile server url (fuel + 1) =
        ⟨.rejected m, none, progressSnapshots 0 (r.contentLength.getD 0) r.chunks,
          true⟩) := by
  refine ⟨?_, ?_, ?_, ?_⟩
  · intro m h
    exact makeRequest_rejected_cleanup server 0 [] fuel url m h
  · intro m hsrv
    simp only [downloadFile, makeRequest, hsrv]
  · intro r hsrv hc1 hc2
    simp only [downloadFile, makeRequest, hsrv, if_neg hc1, if_pos hc2]
  · intro r m hsrv h200 hend
    have hc1 : ¬((r.statusCode = 301 ∨ r.statusCode = 302) ∧ r.location.getD "" ≠ "") := by
      rintro ⟨hc, -⟩
      rw [h200] at hc
      rcases hc with hc | hc <;> exact absurd hc (by decide)
    have hc2 : ¬(r.statusCode ≠ 200) := by simp [h200]
    simp only [downloadFile, makeRequest, hsrv, if_neg hc1, if_neg hc2, hend]

theorem c2_download_failure_cleanup_witness :
    downloadFile (fun _ => .response ⟨404, none, none, [], .complete⟩) "https://host/file" 1 =
      ⟨.rejected ("Download failed: HTTP " ++ toString 404), none, [], true⟩ :=
  (c2_download_failure_cleanup (fun _ => .response ⟨404, none, none, [], .complete⟩)
      "https://host/file" 0).2.2.1 ⟨404, none, none, [], .complete⟩ rfl (by decide) (by decide)

/-- Claim C5: a 301 or 302 response with a truthy Location header makes
downloadFile re-issue the request at that URL with the byte counter and
file contents untouched; when the redirect chain ends in a 200 response
whose body completes, the promise resolves, the content at destPath is
exactly the final response body, and a single progress sequence is
reported, whose transferred values are the running totals of the final
body's chunk sizes starting from 0 and whose total is the final
response's content-length. -/
theorem c5_redirects_followed :
    (∀ (server : String → NetResp) (u : String) (r : HttpResp) (acc : Nat)
        (written : List Nat) (fuel : Nat),
      server u = .response r → (r.statusCode = 301 ∨ r.statusCode = 302) →
      r.location.getD "" ≠ "" →
      makeRequest server acc written u (fuel + 1) =
        makeRequest server acc written (r.location.getD "") fuel) ∧
    (∀ (server : String → NetResp) (u w : String) (n : Nat) (r : HttpResp) (fuel : Nat),
      RedirectsTo server u w n → server w = .response r → r.statusCode = 200 →
      r.bodyEnd = .complete →
      downloadFile server u (n + fuel + 1) =
        ⟨.resolved, some r.chunks.flatten,
          progressSnapshots 0 (r.contentLength.getD 0) r.chunks, true⟩) ∧
    (∀ (total : Nat) (chunks : List (List Nat)) (acc : Nat),
      (progressSnapshots acc total chunks).map Prod.fst =
        prefixTotals acc (chunks.map List.length) ∧
      ∀ pr ∈ progressSnapshots acc total chunks, pr.2 = total) :=
  ⟨makeRequest_redirect, makeRequest_chain_ok, progressSnapshots_spec⟩

/-- A two-hop demonstration server: the first URL answers 302 toward the
second, which serves a complete 4-byte body in two chunks. -/
def c5Server : String → NetResp := fun u =>
  if u = "https://a.example/file" then
    .response ⟨302, some "https://b.example/file", none, [], .complete⟩
  else
    .response ⟨200, none, some 4, [[10, 20], [30, 40]], .complete⟩

theorem c5_redirects_followed_witness :
    downloadFile c5Server "https://a.example/file" 2 =
      ⟨.resolved, some [10, 20, 30, 40], [(2, 4), (4, 4)], true⟩ := by
  have hchain : RedirectsTo c5Server "https://a.example/file" "https://b.example/file" 1 :=
    RedirectsTo.step
      (show c5Server "https://a.example/file" =
        .response ⟨302, some "https://b.example/file", none, [], .complete⟩ by decide)
      (Or.inr rfl) rfl (by decide) (RedirectsTo.refl _)
  have h := c5_redirects_followed.2.1 c5Server "https://a.example/file"
    "https://b.example/file" 1 ⟨200, none, some 4, [[10, 20], [30, 40]], .complete⟩ 0
    hchain (by decide) rfl rfl
  exact h.trans (by decide)

/-- A release object as parsed from the GitHub latest-release JSON,
restricted to the fields the source reads; an absent JSON field is none. -/
structure GhRelease where
  tag_name : Option String
  name : Option String
  published_at : String
  body : Option String
  deriving DecidableEq, Repr

/-- The record resolved by fetchLatestReleaseFromGitHub; version and
releaseName can be undefined when the JSON lacks the fields. -/
structure GhResolved where
  version : Option String
  releaseDate : String
  releaseNotes : String
  releaseName : Option String
  deriving DecidableEq, Repr

/-- JavaScript tag.replace of the anchored leading-v pattern with the
empty string: drop one leading lowercase v. -/
def stripLeadingV (t : String) : String :=
  match t.data with
  | 'v' :: rest => String.mk rest
  | _ => t

/-- The version field resolved by the source: tag_name with one leading
v stripped, an empty result (JS falsy) or an absent tag falling back to
release.name. -/
def ghVersion (r : GhRelease) : Option String :=
  match r.tag_name with
  | some t =>
    if stripLeadingV t = "" then r.name else some (stripLeadingV t)
  | none => r.name

/-- One run of the fallback release fetch as seen from outside: the
response end (with its completion time in ms and the JSON.parse result
of the accumulated text), an error event on the response stream or the
request (handled, rejecting), or no event at all.  The source arms a
15000 ms timer that aborts the request and rejects; the promise settles
with whichever callback runs first. -/
inductive GhNet
  | response (arrivalMs : Nat) (status : Nat) (body : Except String GhRelease)
  | responseError (arrivalMs : Nat) (message : String)
  | requestError (arrivalMs : Nat) (message : String)
  | silence
  deriving Repr

/-- Settlement of the fetch promise. -/
inductive FetchOutcome
  | resolvedWith (release : GhResolved)
  | rejectedWith (message : String)
  deriving DecidableEq, Repr

/-- Observable outcome of fetchLatestReleaseFromGitHub: the settlement
of the promise and whether the in-flight request was aborted by the
timeout timer. -/
structure FetchRun where
  outcome : FetchOutcome
  aborted : Bool
  deriving DecidableEq, Repr

/-- The 15-second budget of the source's setTimeout. -/
def githubFetchTimeoutMs : Nat := 15000

/-- fetchLatestReleaseFromGitHub from the source: an event strictly
before the 15000 ms timer settles first — 200 resolves the release with
the stripped tag (a JSON.parse failure rejects from the catch), 404
rejects with the no-releases error, any other status rejects carrying
the code, an error event rejects with it; otherwise the timer aborts the
request and rejects with the timeout error. -/
def fetchLatestReleaseFromGitHub (net : GhNet) : FetchRun :=
  match net with
  | .response t status body =>
    if t < githubFetchTimeoutMs then
      if status = 200 then
        match body with
        | .ok rel =>
          ⟨.resolvedWith ⟨ghVersion rel, rel.published_at, rel.body.getD "", rel.name⟩, false⟩
        | .error e => ⟨.rejectedWith e, false⟩
      else if status = 404 then ⟨.rejectedWith "No releases found", false⟩
      else ⟨.rejectedWith ("GitHub API error: " ++ toString status), false⟩
    else ⟨.rejectedWith "Request timeout", true⟩
  | .responseError t m =>
    if t < githubFetchTimeoutMs then ⟨.rejectedWith m, false⟩
    else ⟨.rejectedWith "Request timeout", true⟩
  | .requestError t m =>
    if t < githubFetchTimeoutMs then ⟨.rejectedWith m, false⟩
    else ⟨.rejectedWith "Request timeout", true⟩
  | .silence => ⟨.rejectedWith "Request timeout", true⟩

/-- Claim C7: the fallback release fetch resolves a 200 response with
the tag name stripped of one leading v together with the publish
timestamp, rejects with the no-releases error on 404, rejects with an
error carrying the status code on any other non-200 status, and when
nothing settles within the 15-second budget the in-flight request is
aborted and the call rejects with the timeout error. -/
theorem c7_fetch_latest_release (t status : Nat) (rel : GhRelease) (tg : String)
    (body : Except String GhRelease) :
    (∀ s : String, stripLeadingV ("v" ++ s) = s) ∧
    githubFetchTimeoutMs = 15000 ∧
    (t < githubFetchTimeoutMs → rel.tag_name = some tg → stripLeadingV tg ≠ "" →
      fetchLatestReleaseFromGitHub (.response t 200 (.ok rel)) =
        ⟨.resolvedWith ⟨some (stripLeadingV tg), rel.published_at, rel.body.getD "",
          rel.name⟩, false⟩) ∧
    (t < githubFetchTimeoutMs →
      fetchLatestReleaseFromGitHub (.response t 404 body) =
        ⟨.rejectedWith "No releases found", false⟩) ∧
    (t < githubFetchTimeoutMs → status ≠ 200 → status ≠ 404 →
      fetchLatestReleaseFromGitHub (.response t status body) =
        ⟨.rejectedWith ("GitHub API error: " ++ toString status), false⟩) ∧
    (githubFetchTimeoutMs ≤ t →
      fetchLatestReleaseFromGitHub (.response t status body) =
        ⟨.rejectedWith "Request timeout", true⟩) ∧
    fetchLatestReleaseFromGitHub .silence = ⟨.rejectedWith "Request timeout", true⟩ := by
  refine ⟨?_, rfl, ?_, ?_, ?_, ?_, rfl⟩
  · intro s
    show stripLeadingV (String.mk ('v' :: s.data)) = s
    rfl
  · intro ht htag hne
    simp only [fetchLatestReleaseFromGitHub, if_pos ht, ghVersion, htag, if_neg hne]
    simp
  · intro ht
    simp [fetchLatestReleaseFromGitHub, ht]
  · intro ht h200 h404
    simp [fetchLatestReleaseFromGitHub, ht, h200, h404]
  · intro ht
    simp only [fetchLatestReleaseFromGitHub]
    rw [if_neg (Nat.not_lt.mpr ht)]

theorem c7_fetch_latest_release_witness :
    fetchLatestReleaseFromGitHub
        (.response 100 200 (.ok ⟨some "v1.2.3", some "R", "2024-03-03", some "notes"⟩)) =
      ⟨.resolvedWith ⟨some (stripLeadingV "v1.2.3"), "2024-03-03", (some "notes").getD "",
        some "R"⟩, false⟩ ∧
    fetchLatestReleaseFromGitHub (.response 100 404 (.error "ignored")) =
      ⟨.rejectedWith "No releases found", false⟩ ∧
    fetchLatestReleaseFromGitHub (.response 20000 503 (.error "ignored")) =
      ⟨.rejectedWith "Request timeout", true⟩ :=
  ⟨(c7_fetch_latest_release 100 0 ⟨some "v1.2.3", some "R", "2024-03-03", some "notes"⟩
      "v1.2.3" (.error "ignored")).2.2.1 (by decide) rfl (by decide),
   (c7_fetch_latest_release 100 0 ⟨some "v1.2.3", some "R", "2024-03-03", some "notes"⟩
      "v1.2.3" (.error "ignored")).2.2.2.1 (by decide),
   (c7_fetch_latest_release 20000 503 ⟨some "v1.2.3", some "R", "2024-03-03", some "notes"⟩
      "v1.2.3" (.error "ignored")).2.2.2.2.2.1 (by decide)⟩

/-- Result object of the check-for-updates IPC handler: success flag,
the version field of the returned updateInfo when one is present, the
dev-mode tag, and the error message of the failure shape. -/
structure CheckReturn where
  success : Bool
  updateInfoVersion : Option String
  devMode : Bool
  error : Option String
  deriving DecidableEq, Repr

/-- A renderer event with the delay after which it is sent: 0 means sent
synchronously in the handler, a positive value a setTimeout delay. -/
structure TimedEvent where
  delayMs : Nat
  event : RendererEvent
  deriving DecidableEq, Repr

/-- Trace of one check-for-updates invocation: the events toward the
renderer, whether the electron-updater network path was invoked, and the
structured return value. -/
structure CheckHandlerRun where
  events : List TimedEvent
  networkUsed : Bool
  ret : CheckReturn
  deriving DecidableEq, Repr

/-- The check-for-updates IPC handler: always emits checking-for-update
first; in dev mode it then schedules, 500 ms later, an
update-not-available event carrying the current version tagged devMode
and returns success with the current version, never touching the
updater network path; in production it awaits
autoUpdater.checkForUpdates and returns its updateInfo, a rejection
being caught into an update-error event plus a failure return. -/
def checkForUpdatesHandler (isDev : Bool) (currentVersion : String)
    (prodOutcome : CheckOutcome) : CheckHandlerRun :=
  if isDev then
    ⟨[⟨0, .checkingForUpdate⟩, ⟨500, .updateNotAvailable currentVersion true⟩],
      false, ⟨true, some currentVersion, true, none⟩⟩
  else
    match prodOutcome with
    | .success info =>
      ⟨[⟨0, .checkingForUpdate⟩], true,
        ⟨true, info.map UpdateInfo.version, false, none⟩⟩
    | .failure m =>
      ⟨[⟨0, .checkingForUpdate⟩, ⟨0, .updateError m⟩], true, ⟨false, none, false, some m⟩⟩

/-- Result object of download-update and install-update. -/
structure ActionReturn where
  success : Bool
  dmgPath : Option String
  error : Option String
  deriving DecidableEq, Repr

/-- Outcome of an awaited operation (downloadFile on macOS,
autoUpdater.downloadUpdate elsewhere). -/
inductive OpOutcome
  | ok
  | failure (message : String)
  deriving DecidableEq, Repr

/-- Trace of one download-update invocation: renderer events, URLs
opened in the external browser, whether the electron-updater network
path was invoked, and the return value. -/
structure DownloadHandlerRun where
  events : List TimedEvent
  opened : List String
  networkUsed : Bool
  ret : ActionReturn
  deriving DecidableEq, Repr

/-- The download-update IPC handler.  In dev mode: open the releases
page, send an update-error notice and return a refusal.  On macOS with
known update info: send a zeroed download-progress, run downloadFile on
the version-templated DMG URL forwarding its progress snapshots, then
either announce update-downloaded and return the DMG path, or on
failure open the latest-release page, send update-error and return the
failure.  Otherwise: await autoUpdater.downloadUpdate, a rejection being
caught into update-error plus a failure return. -/
def downloadUpdateHandler (isDev darwin : Bool) (latest : Option UpdateInfo)
    (downloadsDir : String) (progress : List (Nat × Nat)) (dl : OpOutcome) :
    DownloadHandlerRun :=
  if isDev then
    ⟨[⟨0, .updateError "开发模式下无法自动下载，已打开 GitHub Releases 页面"⟩],
      ["https://github.com/jheroy/Redmine-desktop/releases"], false,
      ⟨false, none, some "Dev mode - opened releases page"⟩⟩
  else
    match darwin, latest with
    | true, some info =>
      let dmgFileName := "Redmine-" ++ info.version ++ "-arm64.dmg"
      let downloadPath := downloadsDir ++ "/" ++ dmgFileName
      match dl with
      | .ok =>
        ⟨⟨0, .downloadProgress 0 0⟩ ::
            (progress.map (fun pr => ⟨0, .downloadProgress pr.1 pr.2⟩) ++
              [⟨0, .updateDownloaded info.version (some downloadPath)⟩]),
          [], true, ⟨true, some downloadPath, none⟩⟩
      | .failure m =>
        ⟨⟨0, .downloadProgress 0 0⟩ ::
            (progress.map (fun pr => ⟨0, .downloadProgress pr.1 pr.2⟩) ++
              [⟨0, .updateError ("下载失败，已打开下载页面: " ++ m)⟩]),
          ["https://github.com/jheroy/Redmine-desktop/releases/latest"], true,
          ⟨false, none, some m⟩⟩
    | _, _ =>
      match dl with
      | .ok => ⟨[], [], true, ⟨true, none, none⟩⟩
      | .failure m => ⟨[⟨0, .updateError m⟩], [], true, ⟨false, none, some m⟩⟩

/-- Trace of one install-update invocation: renderer events, paths
opened with the OS default handler, the delay of a scheduled quit
(app.quit after 1500 ms on macOS, quitAndInstall after 500 ms
elsewhere), whether quitAndInstall is the scheduled action, and the
return value. -/
structure InstallHandlerRun where
  events : List TimedEvent
  openedPaths : List String
  quitDelayMs : Option Nat
  viaQuitAndInstall : Bool
  ret : ActionReturn
  deriving DecidableEq, Repr

/-- The install-update IPC handler: refused with an update-error notice
in dev mode; on macOS with a downloaded DMG it opens the DMG and
schedules app.quit after 1500 ms; otherwise it schedules
quitAndInstall after 500 ms. -/
def installUpdateHandler (isDev darwin : Bool) (downloadedDmgPath : Option String) :
    InstallHandlerRun :=
  if isDev then
    ⟨[⟨0, .updateError "开发模式下无法安装更新"⟩], [], none, false,
      ⟨false, none, some "Cannot install in dev mode"⟩⟩
  else
    match darwin, downloadedDmgPath with
    | true, some p => ⟨[], [p], some 1500, false, ⟨true, none, none⟩⟩
    | _, _ => ⟨[], [], some 500, true, ⟨true, none, none⟩⟩

/-- Claim C4: in dev (unpackaged) mode check-for-updates short-circuits
without invoking the updater network path, scheduling after a fixed
500 ms an update-not-available event that carries the current version
tagged devMode, and resolving successfully with the current version;
download-update and install-update are refused with explicit
success-false error results, and the refused download additionally opens
the releases web page. -/
theorem c4_dev_mode_short_circuit (cur : String) (outcome : CheckOutcome) (darwin : Bool)
    (latest : Option UpdateInfo) (downloadsDir : String) (progress : List (Nat × Nat))
    (dl : OpOutcome) (dmgPath : Option String) :
    checkForUpdatesHandler true cur outcome =
      ⟨[⟨0, .checkingForUpdate⟩, ⟨500, .updateNotAvailable cur true⟩], false,
        ⟨true, some cur, true, none⟩⟩ ∧
    downloadUpdateHandler true darwin latest downloadsDir progress dl =
      ⟨[⟨0, .updateError "开发模式下无法自动下载，已打开 GitHub Releases 页面"⟩],
        ["https://github.com/jheroy/Redmine-desktop/releases"], false,
        ⟨false, none, some "Dev mode - opened releases page"⟩⟩ ∧
    installUpdateHandler true darwin dmgPath =
      ⟨[⟨0, .updateError "开发模式下无法安装更新"⟩], [], none, false,
        ⟨false, none, some "Cannot install in dev mode"⟩⟩ :=
  ⟨rfl, rfl, rfl⟩
